import Mathlib

/-! Session lifecycle and message dispatch of go-whatsapp-cli.

Shallow embedding of `hlp/libs/whatsapp.go`.  Effects on the outside world
(transport calls, the command executor, the logger, timers) are recorded, in
program order, in a trace; the credential file lives in a small file-system
map whose open, create, write and remove operations can fail.  What the outside world answers is read from an environment `Env` whose
oracles see the trace recorded so far, so every deterministic behaviour of the
transport and of the executor is covered.

The model is sequential: one handler invocation at a time.  The goroutine that
renders the pairing code during login is not part of it.
-/

namespace WhatsappCli

/-! ## Go library functions used by the code -/

/-- Go `unicode.IsSpace`: the code points with the Unicode White_Space property. -/
def unicodeIsSpace (c : Char) : Bool :=
  let n := c.toNat
  (0x09 ≤ n && n ≤ 0x0d) || n == 0x20 || n == 0x85 || n == 0xa0 || n == 0x1680 ||
  (0x2000 ≤ n && n ≤ 0x200a) || n == 0x2028 || n == 0x2029 || n == 0x202f ||
  n == 0x205f || n == 0x3000

/-- Go `strings.TrimSpace`: drops leading and trailing white space. -/
def TrimSpace (s : String) : String :=
  ⟨((s.data.dropWhile unicodeIsSpace).reverse.dropWhile unicodeIsSpace).reverse⟩

/-- Go `strings.Index` followed by the two slices `s[:m]` and `s[m+1:]`, for a
one-character separator: the text before and after the first occurrence. -/
def cutAt (sep : Char) : List Char → Option (List Char × List Char)
  | [] => none
  | c :: cs =>
    if c = sep then some ([], cs)
    else match cutAt sep cs with
      | none => none
      | some (a, b) => some (c :: a, b)

/-- Go `strings.genSplit` for a one-character separator, after `n--`: performs
at most `cuts` cuts and returns the pieces. -/
def genSplit (sep : Char) : (cuts : Nat) → List Char → List (List Char)
  | 0, s => [s]
  | k + 1, s =>
    match cutAt sep s with
    | none => [s]
    | some (a, b) => a :: genSplit sep k b

/-- Go `strings.SplitN(s, sep, n)` for a one-character separator and `n ≥ 0`. -/
def SplitN (s : String) (sep : Char) (n : Nat) : List String :=
  if n = 0 then [] else (genSplit sep (n - 1) s.data).map String.mk

/-- Go `strings.Split(s, sep)` for a one-character separator: `genSplit` with
`n = Count(s, sep) + 1`. -/
def Split (s : String) (sep : Char) : List String :=
  (genSplit sep (s.data.count sep) s.data).map String.mk

/-- Go `strings.Contains` on character lists. -/
def containsChars (sub : List Char) : List Char → Bool
  | [] => sub.isEmpty
  | c :: cs => sub.isPrefixOf (c :: cs) || containsChars sub cs

/-- Go `strings.Contains(s, substr)`. -/
def Contains (s substr : String) : Bool :=
  containsChars substr.data s.data

/-- Go `strconv.Itoa`. -/
def Itoa (n : Int) : String := toString n

/-- Conversion of an integer to Go `int64` (wrap-around modulo 2^64). -/
def wrapInt64 (x : Int) : Int :=
  (x + 9223372036854775808) % 18446744073709551616 - 9223372036854775808

/-- Conversion of an `int64` to Go `uint64`. -/
def toUint64 (x : Int) : Nat :=
  (x % 18446744073709551616).toNat

/-- Go `time.Duration(seconds) * time.Second`, in nanoseconds. -/
def secondsDuration (seconds : Int) : Int :=
  wrapInt64 (wrapInt64 seconds * 1000000000)

/-! ## Data model -/

/-- Go `whatsapp.MessageInfo`, the fields the code reads or writes. The quoted
message is its `Conversation` text, when set. -/
structure MessageInfo where
  Id : String := ""
  RemoteJid : String := ""
  FromMe : Bool := false
  Timestamp : Nat := 0
  QuotedMessageID : String := ""
  QuotedMessage : Option String := none
deriving DecidableEq

/-- Go `whatsapp.TextMessage`. -/
structure TextMessage where
  Info : MessageInfo := {}
  Text : String := ""
deriving DecidableEq

/-- Go `whatsapp.Session`: the credential bundle, kept as the transport made it. -/
structure Session where
  bundle : String
deriving DecidableEq

/-- A non-nil `*whatsapp.Conn`, named by its identity. A Go pointer that may be
nil is an `Option Conn`. -/
structure Conn where
  id : Nat
deriving DecidableEq

/-- Log levels of `hlp.LogPrintln` used by the code. -/
inductive LogLevel where
  | LogLevelInfo
  | LogLevelWarn
  | LogLevelError
deriving DecidableEq

/-- Command registries; the code only ever passes the global `hlp.CMDList`. -/
inductive Registry where
  | CMDList
deriving DecidableEq

/-- An error value handed to `HandleError`: whether its dynamic type is
`*whatsapp.ErrConnectionFailed`, and what `Error()` returns. -/
structure GoError where
  isErrConnectionFailed : Bool
  text : String
deriving DecidableEq

/-- Calls that leave the process, in the order they are made: executor, logger,
timer, transport, and `os.Remove`. -/
inductive Event where
  | CMDExec (registry : Registry) (args : List String) (offset : Int)
  | LogPrintln (level : LogLevel) (text : String)
  | After (nanoseconds : Int)
  | Send (conn : Conn) (content : TextMessage)
  | Restore (conn : Conn)
  | RestoreWithSession (conn : Conn) (session : Session)
  | Login (conn : Conn)
  | Logout (conn : Conn)
  | AdminTest (conn : Conn)
  | Disconnect (conn : Conn)
  | Remove (file : String)
deriving DecidableEq

/-- The world outside the handler: files by path, and the calls made so far. -/
structure World where
  fs : String → Option String
  trace : List Event

/-- Records one more call. -/
def World.emit (w : World) (e : Event) : World :=
  { w with trace := w.trace ++ [e] }

/-- Answers of the outside world. Every oracle sees the calls made so far. A Go
`error` result is `none` for nil and `some text` otherwise. `Open` is the error
of `os.Open` on a file that is present, `Remove` the error of `os.Remove`. -/
structure Env where
  ToLower : String → String
  Now : List Event → Int
  CMDExec : List Event → List String → Int → List String × Option String
  Send : List Event → Conn → TextMessage → Option String
  Restore : List Event → Conn → Option String
  RestoreWithSession : List Event → Conn → Session → Except String Session
  Login : List Event → Conn → Except String Session
  Logout : List Event → Conn → Option String
  AdminTest : List Event → Conn → Bool × Option String
  Open : List Event → String → Option String
  Decode : String → Except String Session
  Create : List Event → String → Option String
  Encode : List Event → Session → String × Option String
  Remove : List Event → String → Option String

/-- Go `WAHandler`. -/
structure WAHandler where
  SessionConn : Option Conn
  SessionJid : String
  SessionTag : String
  SessionFile : String
  SessionStart : Nat
  ReconnectTime : Int
  IsTest : Bool
deriving DecidableEq

/-- How a handler call ends: the world it leaves and, when it did not return
normally, the run-time panic. -/
structure Outcome where
  world : World
  panic : Option String

/-- Reply text used when the executor fails. -/
def failureNotice : String :=
  "Ouch, Got some error here while processing your request 🙈"

/-! ## Operations -/

/-- Go `WASessionExist`: `os.Stat` succeeds exactly on a present file. -/
def WASessionExist (w : World) (file : String) : Bool :=
  (w.fs file).isSome

/-- Go `WAMessageText`. -/
def WAMessageText (env : Env) (conn : Option Conn) (msgJID msgText msgQuotedID msgQuoted : String)
    (msgDelay : Int) (w : World) : World × Option String :=
  match conn with
  | none => (w, some "connection is not valid")
  | some c =>
    let content : TextMessage :=
      if msgQuotedID.length != 0 then
        { Info := { RemoteJid := msgJID, QuotedMessageID := msgQuotedID,
                    QuotedMessage := some msgQuoted },
          Text := msgText }
      else
        { Info := { RemoteJid := msgJID }, Text := msgText }
    let w1 := w.emit (Event.After (secondsDuration msgDelay))
    let err := env.Send w1.trace c content
    let w2 := w1.emit (Event.Send c content)
    match err with
    | none => (w2, none)
    | some e =>
      if env.ToLower e = "sending message timed out" then (w2, none) else (w2, some e)

/-- The reply loop of `HandleTextMessage` (the `for` over `resText`). -/
def sendReplies (env : Env) (wah : WAHandler) (data : TextMessage) : List String → World → World
  | [], w => w
  | r :: rs, w =>
    let res := WAMessageText env wah.SessionConn data.Info.RemoteJid r data.Info.Id data.Text 0 w
    match res.2 with
    | none => sendReplies env wah data rs res.1
    | some e => sendReplies env wah data rs (res.1.emit (Event.LogPrintln LogLevel.LogLevelError e))

/-- The `if err != nil` block of `HandleTextMessage`: the reply lines after an
executor result. -/
def replyLines (resText : List String) (err : Option String) : List String :=
  match err with
  | none => resText
  | some _ =>
    match resText with
    | [] => [failureNotice]
    | r0 :: rest => (failureNotice ++ "\n" ++ r0) :: rest

/-- Go `WAHandler.HandleTextMessage`. Indexing a slice out of range panics. -/
def HandleTextMessage (env : Env) (wah : WAHandler) (data : TextMessage) (w : World) : Outcome :=
  if wah.IsTest && data.Info.RemoteJid != wah.SessionJid then
    ⟨w, none⟩
  else
    let msgText := SplitN (TrimSpace data.Text) ' ' 2
    match msgText[0]? with
    | none => ⟨w, some "runtime error: index out of range [0] with length 0"⟩
    | some m0 =>
      if m0 != wah.SessionTag || data.Info.Timestamp < wah.SessionStart then
        ⟨w, none⟩
      else
        match msgText[1]? with
        | none => ⟨w, some "runtime error: index out of range [1] with length 1"⟩
        | some m1 =>
          let res := env.CMDExec w.trace (Split m1 ' ') 0
          let w1 := w.emit (Event.CMDExec Registry.CMDList (Split m1 ' ') 0)
          let w2 :=
            match res.2 with
            | none => w1
            | some e => w1.emit (Event.LogPrintln LogLevel.LogLevelError e)
          ⟨sendReplies env wah data (replyLines res.1 res.2) w2, none⟩

/-- Go `WAHandler.HandleError`. The handler is a pointer receiver: its state
after the call is returned next to the world. -/
def HandleError (env : Env) (wah : WAHandler) (err : GoError) (w : World) : WAHandler × World :=
  if err.isErrConnectionFailed then
    match WASessionExist w wah.SessionFile, wah.SessionConn with
    | true, some c =>
      let w1 := w.emit (Event.LogPrintln LogLevel.LogLevelWarn
        ("connection closed unexpetedly, reconnecting after " ++ Itoa wah.ReconnectTime ++ " seconds"))
      let wah1 := { wah with SessionStart := toUint64 (env.Now w1.trace) }
      let w2 := w1.emit (Event.After (secondsDuration wah.ReconnectTime))
      let res := env.Restore w2.trace c
      let w3 := w2.emit (Event.Restore c)
      match res with
      | none => (wah1, w3)
      | some e => (wah1, w3.emit (Event.LogPrintln LogLevel.LogLevelError e))
    | _, _ =>
      (wah, w.emit (Event.LogPrintln LogLevel.LogLevelError "connection closed unexpetedly"))
  else
    if Contains (env.ToLower err.text) "server closed connection" then
      (wah, w)
    else
      (wah, w.emit (Event.LogPrintln LogLevel.LogLevelError err.text))

/-- Go `WASessionPing`. -/
def WASessionPing (env : Env) (conn : Conn) (w : World) : World × Option String :=
  let res := env.AdminTest w.trace conn
  let w1 := w.emit (Event.AdminTest conn)
  if !res.1 then
    match res.2 with
    | some e => (w1, some e)
    | none => (w1, some "something when wrong while trying to ping, please check phone connectivity")
  else
    (w1, none)

/-- Go `WASessionLoad`: `os.Open` fails on a missing file and may fail on a
present one; then the gob decoder reads the content. -/
def WASessionLoad (env : Env) (file : String) (w : World) : Except String Session :=
  match w.fs file with
  | none => Except.error ("open " ++ file ++ ": no such file or directory")
  | some bytes =>
    match env.Open w.trace file with
    | some e => Except.error e
    | none => env.Decode bytes

/-- Go `WASessionSave`: `os.Create` truncates the file, then the gob encoder
writes it; either step can fail. -/
def WASessionSave (env : Env) (file : String) (session : Session) (w : World) :
    World × Option String :=
  match env.Create w.trace file with
  | some e => (w, some e)
  | none =>
    let res := env.Encode w.trace session
    ({ w with fs := Function.update w.fs file (some res.1) }, res.2)

/-- Go `_ = os.Remove(file)`: the file is gone when the removal succeeds and
stays as it is when the removal fails; the error is dropped as the code does. -/
def osRemove (env : Env) (file : String) (w : World) : World :=
  match env.Remove w.trace file with
  | none => { fs := Function.update w.fs file none, trace := w.trace ++ [Event.Remove file] }
  | some _ => { fs := w.fs, trace := w.trace ++ [Event.Remove file] }

/-- Body of `WASessionLogin` for a non-nil handle, before the deferred call. -/
def loginBody (env : Env) (c : Conn) (file : String) (w : World) : World × Option String :=
  if WASessionExist w file then
    (w, some "session file already exist, please logout first")
  else
    let res := env.Login w.trace c
    let w1 := w.emit (Event.Login c)
    match res with
    | Except.error e => (w1, some e)
    | Except.ok session =>
      let saved := WASessionSave env file session w1
      match saved.2 with
      | some e => (saved.1, some e)
      | none => WASessionPing env c saved.1

/-- Go `WASessionLogin`. The deferred `conn.Disconnect()` runs on every return
of the non-nil branch. -/
def WASessionLogin (env : Env) (conn : Option Conn) (file : String) (w : World) :
    World × Option String :=
  match conn with
  | none => (w, some "connection is not valid")
  | some c =>
    let res := loginBody env c file w
    (res.1.emit (Event.Disconnect c), res.2)

/-- Go `WASessionRestore`. -/
def WASessionRestore (env : Env) (conn : Option Conn) (file : String) (w : World) :
    World × Option String :=
  match conn with
  | none => (w, some "connection is not valid")
  | some c =>
    if !WASessionExist w file then
      (w.emit (Event.Disconnect c), some "session file doesn\x27t exist, please login first")
    else
      match WASessionLoad env file w with
      | Except.error _ =>
        ((osRemove env file w).emit (Event.Disconnect c),
          some "session not valid, removing session file")
      | Except.ok session =>
        let res := env.RestoreWithSession w.trace c session
        let w1 := w.emit (Event.RestoreWithSession c session)
        match res with
        | Except.error e => (w1.emit (Event.Disconnect c), some e)
        | Except.ok session1 =>
          let saved := WASessionSave env file session1 w1
          match saved.2 with
          | some e => (saved.1, some e)
          | none => WASessionPing env c saved.1

/-- Go `WASessionLogout`. The deferred `conn.Disconnect()` runs on every return
of the non-nil branch. -/
def WASessionLogout (env : Env) (conn : Option Conn) (file : String) (w : World) :
    World × Option String :=
  match conn with
  | none => (w, some "connection is not valid")
  | some c =>
    let res := env.Logout w.trace c
    let w1 := w.emit (Event.Logout c)
    match res with
    | some e => (w1.emit (Event.Disconnect c), some e)
    | none => ((osRemove env file w1).emit (Event.Disconnect c), none)

/-! ## Observations on traces -/

/-- Arguments of the executor invocations in a trace, in order. -/
def execCalls : List Event → List (Registry × List String × Int)
  | [] => []
  | Event.CMDExec r a o :: es => (r, a, o) :: execCalls es
  | _ :: es => execCalls es

/-- Messages handed to the transport for sending in a trace, in order. -/
def sentMessages : List Event → List (Conn × TextMessage)
  | [] => []
  | Event.Send c m :: es => (c, m) :: sentMessages es
  | _ :: es => sentMessages es

/-- Timer waits and transport sends of a trace, in order. -/
def waitsAndSends : List Event → List Event
  | [] => []
  | Event.After d :: es => Event.After d :: waitsAndSends es
  | Event.Send c m :: es => Event.Send c m :: waitsAndSends es
  | _ :: es => waitsAndSends es

/-- Handles on which the in-place transport restore was invoked, in order. -/
def restoreCalls : List Event → List Conn
  | [] => []
  | Event.Restore c :: es => c :: restoreCalls es
  | _ :: es => restoreCalls es

/-- Log entries of a trace, in order. -/
def logEntries : List Event → List (LogLevel × String)
  | [] => []
  | Event.LogPrintln l t :: es => (l, t) :: logEntries es
  | _ :: es => logEntries es

/-- Whether an event is a transport call. -/
def Event.isTransport : Event → Bool
  | Event.Send _ _ => true
  | Event.Restore _ => true
  | Event.RestoreWithSession _ _ => true
  | Event.Login _ => true
  | Event.Logout _ => true
  | Event.AdminTest _ => true
  | Event.Disconnect _ => true
  | _ => false

/-- Text split on white space, following the words of the specification: the
maximal runs of non-white-space characters (Go `strings.Fields`). The first
argument is the run being read, newest character first. -/
def fieldsChars : List Char → List Char → List (List Char)
  | cur, [] => if cur.isEmpty then [] else [cur.reverse]
  | cur, c :: cs =>
    if unicodeIsSpace c then
      if cur.isEmpty then fieldsChars [] cs else cur.reverse :: fieldsChars [] cs
    else fieldsChars (c :: cur) cs

/-- Split on white space as the specification words it. -/
def whitespaceFields (s : String) : List String :=
  (fieldsChars [] s.data).map String.mk

/-- Lower-casing of the ASCII letters, used to instantiate `Env.ToLower`; it
agrees with Go `strings.ToLower` on ASCII text. -/
def asciiToLower (s : String) : String :=
  ⟨s.data.map Char.toLower⟩

/-! ## Concrete environments, handlers and messages -/

/-- Environment in which every outside call succeeds and the executor echoes
its arguments as reply lines. -/
def quietEnv : Env :=
  { ToLower := asciiToLower
    Now := fun _ => 1700000000
    CMDExec := fun _ args _ => (args, none)
    Send := fun _ _ _ => none
    Restore := fun _ _ => none
    RestoreWithSession := fun _ _ s => Except.ok s
    Login := fun _ _ => Except.ok ⟨"fresh"⟩
    Logout := fun _ _ => none
    AdminTest := fun _ _ => (true, none)
    Open := fun _ _ => none
    Decode := fun bytes => if bytes = "" then Except.error "EOF" else Except.ok ⟨bytes⟩
    Create := fun _ _ => none
    Encode := fun _ s => (s.bundle, none)
    Remove := fun _ _ => none }

/-- Handler with trigger tag `!bot`, session start 1700000000 and a live handle. -/
def botHandler : WAHandler :=
  { SessionConn := some ⟨1⟩, SessionJid := "operator@s.whatsapp.net", SessionTag := "!bot",
    SessionFile := "session.gob", SessionStart := 1700000000, ReconnectTime := 5,
    IsTest := false }

/-- Inbound message from a peer, with identifier `MSG1`, at the given time. -/
def inbound (text : String) (timestamp : Nat) : TextMessage :=
  { Info := { Id := "MSG1", RemoteJid := "peer@s.whatsapp.net", Timestamp := timestamp },
    Text := text }

/-- World without files and without earlier calls. -/
def emptyWorld : World :=
  { fs := fun _ => none, trace := [] }

/-- World whose only file is the credential file `session.gob` with the given content. -/
def worldWithSession (bytes : String) : World :=
  { fs := fun p => if p = "session.gob" then some bytes else none, trace := [] }


/-- Environment whose executor fails with the given reply lines, everything
else as in `quietEnv`. -/
def failingExecEnv (lines : List String) : Env :=
  { quietEnv with CMDExec := fun _ _ _ => (lines, some "unknown command") }

/-- Environment whose transport refuses every send, everything else as in
`quietEnv`. -/
def brokenSendEnv : Env :=
  { quietEnv with Send := fun _ _ _ => some "write: broken pipe" }


/-- Environment whose liveness probe reports not-ok without an error,
everything else as in `quietEnv`. -/
def deadPhoneEnv : Env :=
  { quietEnv with AdminTest := fun _ _ => (false, none) }

/-- Environment in which the credential file cannot be created, everything
else as in `quietEnv`. -/
def readOnlyDiskEnv : Env :=
  { quietEnv with Create := fun _ _ => some "open session.gob: permission denied" }

/-- Environment whose transport refuses to restore a session, everything else
as in `quietEnv`. -/
def restoreRefusedEnv : Env :=
  { quietEnv with RestoreWithSession := fun _ _ _ => Except.error "restore session connection timed out" }

/-- Environment in which the credential file cannot be removed, everything
else as in `quietEnv`. -/
def stuckFileEnv : Env :=
  { quietEnv with Remove := fun _ _ => some "remove session.gob: permission denied" }

/-- Handler like `botHandler` whose transport handle is nil. -/
def detachedHandler : WAHandler :=
  { botHandler with SessionConn := none }

/-- Handler like `botHandler` whose reconnect delay overflows `time.Duration`. -/
def hugeDelayHandler : WAHandler :=
  { botHandler with ReconnectTime := 9223372037 }

/-- A value of type `*whatsapp.ErrConnectionFailed` whose text mentions a
closed connection. -/
def connectionFailedClosed : GoError :=
  { isErrConnectionFailed := true,
    text := "connection to WhatsApp servers failed: server closed connection" }

/-- An error of another type whose text mentions a closed connection in mixed case. -/
def serverClosed : GoError :=
  { isErrConnectionFailed := false, text := "Server Closed Connection,code: 1006" }

/-! # Theorems -/

/-! ## Splitting -/

theorem cutAt_none_iff (sep : Char) (s : List Char) : cutAt sep s = none ↔ sep ∉ s := by
  induction s with
  | nil => simp [cutAt]
  | cons c cs ih =>
    unfold cutAt
    by_cases h : c = sep
    · simp [h]
    · cases hc : cutAt sep cs with
      | none =>
        have := ih.mp hc
        simp [h, Ne.symm h, this]
      | some p =>
        have : sep ∈ cs := by
          by_contra hn
          rw [ih.mpr hn] at hc
          cases hc
        simp [h, this]

theorem cutAt_some (sep : Char) (s a b : List Char) (h : cutAt sep s = some (a, b)) :
    s = a ++ sep :: b ∧ sep ∉ a := by
  induction s generalizing a with
  | nil => simp [cutAt] at h
  | cons c cs ih =>
    unfold cutAt at h
    by_cases hc : c = sep
    · simp [hc] at h
      obtain ⟨rfl, rfl⟩ := h
      simp [hc]
    · cases hr : cutAt sep cs with
      | none => simp [hc, hr] at h
      | some p =>
        obtain ⟨a1, b1⟩ := p
        simp [hc, hr] at h
        obtain ⟨rfl, rfl⟩ := h
        obtain ⟨h1, h2⟩ := ih a1 hr
        constructor
        · simp [← h1]
        · simp [h2, Ne.symm hc]

theorem genSplit_ne_nil (sep : Char) (k : Nat) (s : List Char) : genSplit sep k s ≠ [] := by
  cases k with
  | zero => simp [genSplit]
  | succ k =>
    unfold genSplit
    cases cutAt sep s with
    | none => simp
    | some p => simp

theorem genSplit_spec (sep : Char) (k : Nat) (s : List Char) (h : s.count sep ≤ k) :
    [sep].intercalate (genSplit sep k s) = s ∧ ∀ p ∈ genSplit sep k s, sep ∉ p := by
  induction k generalizing s with
  | zero =>
    have hs : sep ∉ s := by
      intro hm
      have := List.count_pos_iff.mpr hm
      omega
    simp [genSplit, List.intercalate, hs]
  | succ k ih =>
    unfold genSplit
    cases hc : cutAt sep s with
    | none =>
      have hs := (cutAt_none_iff sep s).mp hc
      simp [List.intercalate, hs]
    | some p =>
      obtain ⟨a, b⟩ := p
      obtain ⟨hs, ha⟩ := cutAt_some sep s a b hc
      have hb : b.count sep ≤ k := by
        have : s.count sep = b.count sep + 1 := by
          rw [hs, List.count_append, List.count_cons_self, List.count_eq_zero_of_not_mem ha]
          omega
        omega
      obtain ⟨h1, h2⟩ := ih b hb
      constructor
      · obtain ⟨x, xs, hx⟩ := List.exists_cons_of_ne_nil (genSplit_ne_nil sep k b)
        simp only []
        rw [hx] at h1 ⊢
        rw [hs, ← h1]
        simp [List.intercalate]
      · intro p hp
        simp at hp
        rcases hp with rfl | hp
        · exact ha
        · exact h2 p hp

theorem Split_spec (s : String) (sep : Char) :
    [sep].intercalate ((Split s sep).map String.data) = s.data ∧
      ∀ a ∈ Split s sep, sep ∉ a.data := by
  obtain ⟨h1, h2⟩ := genSplit_spec sep (s.data.count sep) s.data (le_refl _)
  have hmap : (Split s sep).map String.data = genSplit sep (s.data.count sep) s.data := by
    simp [Split, List.map_map, Function.comp_def]
  constructor
  · rw [hmap]; exact h1
  · intro a ha
    apply h2
    rw [← hmap]
    exact List.mem_map_of_mem _ ha

theorem SplitN_two_of_no_sep (s : String) (sep : Char) (h : sep ∉ s.data) :
    SplitN s sep 2 = [s] := by
  simp [SplitN, genSplit, (cutAt_none_iff sep s.data).mpr h]

theorem SplitN_two_head (s : String) (sep : Char) :
    ∃ m0 rest, SplitN s sep 2 = m0 :: rest := by
  simp only [SplitN]
  cases hc : cutAt sep s.data with
  | none => exact ⟨s, [], by simp [genSplit, hc]⟩
  | some p => exact ⟨⟨p.1⟩, [⟨p.2⟩], by simp [genSplit, hc]⟩

/-! ## Traces of the reply loop -/

theorem execCalls_append (t1 t2 : List Event) :
    execCalls (t1 ++ t2) = execCalls t1 ++ execCalls t2 := by
  induction t1 with
  | nil => rfl
  | cons e es ih => cases e <;> simp [execCalls, ih]

theorem sentMessages_append (t1 t2 : List Event) :
    sentMessages (t1 ++ t2) = sentMessages t1 ++ sentMessages t2 := by
  induction t1 with
  | nil => rfl
  | cons e es ih => cases e <;> simp [sentMessages, ih]

theorem waitsAndSends_append (t1 t2 : List Event) :
    waitsAndSends (t1 ++ t2) = waitsAndSends t1 ++ waitsAndSends t2 := by
  induction t1 with
  | nil => rfl
  | cons e es ih => cases e <;> simp [waitsAndSends, ih]

theorem secondsDuration_zero : secondsDuration 0 = 0 := by
  decide

theorem length_ne_zero_iff (s : String) : (s.length != 0) = true ↔ s ≠ "" := by
  cases s with
  | mk d =>
    cases d with
    | nil => simp [String.length]
    | cons c cs =>
      simp only [String.length, List.length_cons, bne_iff_ne, ne_eq, Nat.succ_ne_zero,
        not_false_eq_true, true_iff]
      intro h
      have := congrArg String.data h
      simp at this

theorem sendReplies_fs (env : Env) (wah : WAHandler) (data : TextMessage) (lines : List String)
    (w : World) : (sendReplies env wah data lines w).fs = w.fs := by
  induction lines generalizing w with
  | nil => rfl
  | cons r rs ih =>
    unfold sendReplies
    cases hc : wah.SessionConn with
    | none => simp [WAMessageText, ih, World.emit]
    | some c =>
      simp only [WAMessageText]
      cases hs : env.Send (w.emit (Event.After (secondsDuration 0))).trace c
          (if data.Info.Id.length != 0 then
            { Info := { RemoteJid := data.Info.RemoteJid, QuotedMessageID := data.Info.Id,
                        QuotedMessage := some data.Text },
              Text := r }
          else { Info := { RemoteJid := data.Info.RemoteJid }, Text := r }) with
      | none => simp [ih, World.emit]
      | some e =>
        by_cases ht : env.ToLower e = "sending message timed out"
        · simp [ht, ih, World.emit]
        · simp [ht, ih, World.emit]

theorem sendReplies_execCalls (env : Env) (wah : WAHandler) (data : TextMessage)
    (lines : List String) (w : World) :
    execCalls (sendReplies env wah data lines w).trace = execCalls w.trace := by
  induction lines generalizing w with
  | nil => rfl
  | cons r rs ih =>
    unfold sendReplies
    cases hc : wah.SessionConn with
    | none => simp [WAMessageText, ih, World.emit, execCalls_append, execCalls]
    | some c =>
      simp only [WAMessageText]
      cases hs : env.Send (w.emit (Event.After (secondsDuration 0))).trace c
          (if data.Info.Id.length != 0 then
            { Info := { RemoteJid := data.Info.RemoteJid, QuotedMessageID := data.Info.Id,
                        QuotedMessage := some data.Text },
              Text := r }
          else { Info := { RemoteJid := data.Info.RemoteJid }, Text := r }) with
      | none => simp [ih, World.emit, execCalls_append, execCalls]
      | some e =>
        by_cases ht : env.ToLower e = "sending message timed out"
        · simp [ht, ih, World.emit, execCalls_append, execCalls]
        · simp [ht, ih, World.emit, execCalls_append, execCalls]

theorem sendReplies_waitsAndSends (env : Env) (wah : WAHandler) (data : TextMessage) (c : Conn)
    (hc : wah.SessionConn = some c) (lines : List String) (w : World) :
    waitsAndSends (sendReplies env wah data lines w).trace =
      waitsAndSends w.trace ++ lines.flatMap (fun r =>
        [Event.After 0,
         Event.Send c
          (if data.Info.Id.length != 0 then
            { Info := { RemoteJid := data.Info.RemoteJid, QuotedMessageID := data.Info.Id,
                        QuotedMessage := some data.Text },
              Text := r }
          else { Info := { RemoteJid := data.Info.RemoteJid }, Text := r })]) := by
  induction lines generalizing w with
  | nil => simp [sendReplies]
  | cons r rs ih =>
    unfold sendReplies
    simp only [WAMessageText, hc]
    cases hs : env.Send (w.emit (Event.After (secondsDuration 0))).trace c
        (if data.Info.Id.length != 0 then
          { Info := { RemoteJid := data.Info.RemoteJid, QuotedMessageID := data.Info.Id,
                      QuotedMessage := some data.Text },
            Text := r }
        else { Info := { RemoteJid := data.Info.RemoteJid }, Text := r }) with
    | none =>
      simp [ih, World.emit, waitsAndSends_append, waitsAndSends, secondsDuration_zero]
    | some e =>
      by_cases ht : env.ToLower e = "sending message timed out"
      · simp [ht, ih, World.emit, waitsAndSends_append, waitsAndSends, secondsDuration_zero]
      · simp [ht, ih, World.emit, waitsAndSends_append, waitsAndSends, secondsDuration_zero]

theorem sentMessages_waitsAndSends (t : List Event) :
    sentMessages (waitsAndSends t) = sentMessages t := by
  induction t with
  | nil => rfl
  | cons e es ih => cases e <;> simp [waitsAndSends, sentMessages, ih]

theorem sendReplies_sentTexts (env : Env) (wah : WAHandler) (data : TextMessage) (c : Conn)
    (hc : wah.SessionConn = some c) (lines : List String) (w : World) :
    (sentMessages (sendReplies env wah data lines w).trace).map (fun p => p.2.Text) =
      (sentMessages w.trace).map (fun p => p.2.Text) ++ lines := by
  rw [← sentMessages_waitsAndSends, sendReplies_waitsAndSends env wah data c hc,
    sentMessages_append, sentMessages_waitsAndSends, List.map_append]
  congr 1
  induction lines with
  | nil => rfl
  | cons r rs ih =>
    rw [List.flatMap_cons, sentMessages_append, List.map_append, ih]
    simp only [sentMessages, List.map_cons, List.map_nil, List.singleton_append, List.cons.injEq,
      and_true]
    split <;> rfl

/-! ## Message dispatch -/

theorem HandleTextMessage_accepted (env : Env) (wah : WAHandler) (data : TextMessage) (w : World)
    (rest : String)
    (htest : (wah.IsTest && data.Info.RemoteJid != wah.SessionJid) = false)
    (hsplit : SplitN (TrimSpace data.Text) ' ' 2 = [wah.SessionTag, rest])
    (hts : wah.SessionStart ≤ data.Info.Timestamp) :
    HandleTextMessage env wah data w =
      ⟨sendReplies env wah data
        (replyLines (env.CMDExec w.trace (Split rest ' ') 0).1
          (env.CMDExec w.trace (Split rest ' ') 0).2)
        (match (env.CMDExec w.trace (Split rest ' ') 0).2 with
          | none => w.emit (Event.CMDExec Registry.CMDList (Split rest ' ') 0)
          | some e => (w.emit (Event.CMDExec Registry.CMDList (Split rest ' ') 0)).emit
              (Event.LogPrintln LogLevel.LogLevelError e)),
       none⟩ := by
  unfold HandleTextMessage
  simp [htest, hsplit, Nat.not_lt.mpr hts]

theorem HandleTextMessage_bare_trigger (env : Env) (wah : WAHandler) (data : TextMessage)
    (w : World)
    (htest : (wah.IsTest && data.Info.RemoteJid != wah.SessionJid) = false)
    (htext : TrimSpace data.Text = wah.SessionTag)
    (hts : wah.SessionStart ≤ data.Info.Timestamp) :
    (' ' ∉ wah.SessionTag.data →
      HandleTextMessage env wah data w =
        ⟨w, some "runtime error: index out of range [1] with length 1"⟩) ∧
    (' ' ∈ wah.SessionTag.data → HandleTextMessage env wah data w = ⟨w, none⟩) := by
  constructor
  · intro hsp
    unfold HandleTextMessage
    simp [htest, htext, SplitN_two_of_no_sep _ _ hsp, Nat.not_lt.mpr hts]
  · intro hsp
    unfold HandleTextMessage
    cases hc : cutAt ' ' wah.SessionTag.data with
    | none => exact absurd hsp ((cutAt_none_iff _ _).mp hc)
    | some p =>
      obtain ⟨a, b⟩ := p
      obtain ⟨hs, ha⟩ := cutAt_some _ _ _ _ hc
      have hne : (String.mk a) ≠ wah.SessionTag := by
        intro h
        apply ha
        have h2 : a = wah.SessionTag.data := by rw [← h]
        rw [h2]
        exact hsp
      simp [htest, htext, SplitN, genSplit, hc, hne]

/-- C1 (code defect): with trigger tag `!bot`, the message whose text is exactly
`!bot`, timed at session start and outside test mode, is not discarded:
`HandleTextMessage` indexes the one-element split result at 1 and panics. No
executor call and no send precede the panic. -/
theorem HandleTextMessage_bare_trigger_panics :
    (HandleTextMessage quietEnv botHandler (inbound "!bot" 1700000000) emptyWorld).panic =
        some "runtime error: index out of range [1] with length 1" ∧
      (HandleTextMessage quietEnv botHandler (inbound "!bot" 1700000000) emptyWorld).world.trace
        = [] := by
  decide

/-- C2: a message timed strictly before the session start is discarded whatever
its text, tag, conversation and test-mode flag: the handler returns normally and
leaves the world, in particular the trace of executor calls and sends, as it was. -/
theorem HandleTextMessage_stale_discarded (env : Env) (wah : WAHandler) (data : TextMessage)
    (w : World) (h : data.Info.Timestamp < wah.SessionStart) :
    HandleTextMessage env wah data w = ⟨w, none⟩ := by
  unfold HandleTextMessage
  obtain ⟨m0, rest, hs⟩ := SplitN_two_head (TrimSpace data.Text) ' '
  by_cases ht : (wah.IsTest && data.Info.RemoteJid != wah.SessionJid) = true
  · simp [ht]
  · simp [ht, hs, h]

/-- Witness of C2: `!bot ping` timed one second before the session start. -/
theorem HandleTextMessage_stale_discarded_witness :
    (inbound "!bot ping" 1699999999).Info.Timestamp < botHandler.SessionStart ∧
      HandleTextMessage quietEnv botHandler (inbound "!bot ping" 1699999999) emptyWorld =
        ⟨emptyWorld, none⟩ :=
  ⟨by decide,
   HandleTextMessage_stale_discarded quietEnv botHandler (inbound "!bot ping" 1699999999)
    emptyWorld (by decide)⟩

/-- C3 as stated fails: for `!bot  ping` (two spaces) the executor receives the
arguments `["", "ping"]`, which contain an empty argument and differ from the
white-space fields `["ping"]` of the text after the trigger. -/
theorem HandleTextMessage_args_not_fields :
    SplitN (TrimSpace (inbound "!bot  ping" 1700000001).Text) ' ' 2 = ["!bot", " ping"] ∧
      execCalls
        (HandleTextMessage quietEnv botHandler (inbound "!bot  ping" 1700000001)
          emptyWorld).world.trace = [(Registry.CMDList, ["", "ping"], 0)] ∧
      whitespaceFields " ping" = ["ping"] ∧
      "" ∈ ["", "ping"] ∧
      (["", "ping"] : List String) ≠ whitespaceFields " ping" := by
  decide

/-- C3 amended: an accepted message with text `rest` after the first space
makes the handler return normally and invoke the executor exactly once, with
the registry `CMDList`, offset 0 and the arguments `Split rest " "`: the pieces
of `rest` between single space characters, so that joining them with one space
gives `rest` back and no argument contains a space (empty arguments occur
between adjacent spaces). -/
theorem HandleTextMessage_exec_args (env : Env) (wah : WAHandler) (data : TextMessage)
    (w : World) (rest : String)
    (htest : (wah.IsTest && data.Info.RemoteJid != wah.SessionJid) = false)
    (hsplit : SplitN (TrimSpace data.Text) ' ' 2 = [wah.SessionTag, rest])
    (hts : wah.SessionStart ≤ data.Info.Timestamp) :
    (HandleTextMessage env wah data w).panic = none ∧
      execCalls (HandleTextMessage env wah data w).world.trace =
        execCalls w.trace ++ [(Registry.CMDList, Split rest ' ', 0)] ∧
      [' '].intercalate ((Split rest ' ').map String.data) = rest.data ∧
      ∀ a ∈ Split rest ' ', ' ' ∉ a.data := by
  rw [HandleTextMessage_accepted env wah data w rest htest hsplit hts]
  refine ⟨rfl, ?_, (Split_spec rest ' ').1, (Split_spec rest ' ').2⟩
  simp only [sendReplies_execCalls]
  cases (env.CMDExec w.trace (Split rest ' ') 0).2 <;>
    simp [World.emit, execCalls_append, execCalls]

/-- Witness of C3 amended: tag `!bot`, text `!bot ping`, timestamp one second
after session start: the executor is invoked once with arguments `["ping"]`. -/
theorem HandleTextMessage_exec_args_witness :
    execCalls
        (HandleTextMessage quietEnv botHandler (inbound "!bot ping" 1700000001)
          emptyWorld).world.trace = [(Registry.CMDList, ["ping"], 0)] :=
  (HandleTextMessage_exec_args quietEnv botHandler (inbound "!bot ping" 1700000001) emptyWorld
    "ping" (by decide) (by decide) (by decide)).2.1

/-- C4 as stated fails: with a nil transport handle, an accepted message whose
executor call fails without reply lines is answered by no reply at all; the
handler only logs the executor error and the connection-is-not-valid error. -/
theorem HandleTextMessage_nil_handle_sends_nothing :
    sentMessages
        (HandleTextMessage (failingExecEnv []) detachedHandler (inbound "!bot pong" 1700000001)
          emptyWorld).world.trace = [] ∧
      (HandleTextMessage (failingExecEnv []) detachedHandler (inbound "!bot pong" 1700000001)
          emptyWorld).world.trace =
        [Event.CMDExec Registry.CMDList ["pong"] 0,
         Event.LogPrintln LogLevel.LogLevelError "unknown command",
         Event.LogPrintln LogLevel.LogLevelError "connection is not valid"] := by
  decide

/-- C4 amended: when the handler has a live transport handle and the executor
returns reply lines `L` together with an error for an accepted message, the
handler logs the error and the texts of the messages it hands to the transport
are, in order, exactly: the failure notice alone when `L` is empty, otherwise
the failure notice, a line break and `L[0]`, followed by `L[1..]` unchanged; so
`max 1 (len L)` replies. -/
theorem HandleTextMessage_executor_error_replies (env : Env) (wah : WAHandler)
    (data : TextMessage) (w : World) (rest : String) (L : List String) (e : String) (c : Conn)
    (htest : (wah.IsTest && data.Info.RemoteJid != wah.SessionJid) = false)
    (hsplit : SplitN (TrimSpace data.Text) ' ' 2 = [wah.SessionTag, rest])
    (hts : wah.SessionStart ≤ data.Info.Timestamp)
    (hexec : env.CMDExec w.trace (Split rest ' ') 0 = (L, some e))
    (hconn : wah.SessionConn = some c) :
    ∃ lines : List String,
      (L = [] → lines = [failureNotice]) ∧
      (∀ l0 ls, L = l0 :: ls → lines = (failureNotice ++ "\n" ++ l0) :: ls) ∧
      lines.length = max 1 L.length ∧
      HandleTextMessage env wah data w =
        ⟨sendReplies env wah data lines
          ((w.emit (Event.CMDExec Registry.CMDList (Split rest ' ') 0)).emit
            (Event.LogPrintln LogLevel.LogLevelError e)), none⟩ ∧
      (sentMessages (HandleTextMessage env wah data w).world.trace).map (fun p => p.2.Text) =
        (sentMessages w.trace).map (fun p => p.2.Text) ++ lines ∧
      (sentMessages (HandleTextMessage env wah data w).world.trace).length =
        (sentMessages w.trace).length + max 1 L.length := by
  have hacc := HandleTextMessage_accepted env wah data w rest htest hsplit hts
  rw [hexec] at hacc
  have hlen : (replyLines L (some e)).length = max 1 L.length := by
    cases L with
    | nil => simp [replyLines]
    | cons l0 ls => simp [replyLines]
  have hsent : (sentMessages (HandleTextMessage env wah data w).world.trace).map
      (fun p => p.2.Text) = (sentMessages w.trace).map (fun p => p.2.Text) ++
        replyLines L (some e) := by
    rw [hacc]
    simp only []
    rw [sendReplies_sentTexts env wah data c hconn]
    simp [World.emit, sentMessages_append, sentMessages]
  refine ⟨replyLines L (some e), ?_, ?_, hlen, hacc, hsent, ?_⟩
  · intro hL
    simp [hL, replyLines]
  · intro l0 ls hL
    simp [hL, replyLines]
  · have := congrArg List.length hsent
    simpa [hlen] using this

/-- Witness of C4 amended: the executor fails with the two lines `usage:` and
`ping`; two messages go out, the first carrying the failure notice, a line
break and `usage:`, the second `ping`. When it fails without lines, one message
goes out, the failure notice. -/
theorem HandleTextMessage_executor_error_replies_witness :
    (sentMessages
        (HandleTextMessage (failingExecEnv ["usage:", "ping"]) botHandler
          (inbound "!bot pong" 1700000001) emptyWorld).world.trace).map (fun p => p.2.Text) =
      [failureNotice ++ "\n" ++ "usage:", "ping"] ∧
    (sentMessages
        (HandleTextMessage (failingExecEnv []) botHandler
          (inbound "!bot pong" 1700000001) emptyWorld).world.trace).map (fun p => p.2.Text) =
      [failureNotice] := by
  constructor
  · obtain ⟨lines, _, h1, _, _, hsend, _⟩ :=
      HandleTextMessage_executor_error_replies (failingExecEnv ["usage:", "ping"]) botHandler
        (inbound "!bot pong" 1700000001) emptyWorld "pong" ["usage:", "ping"] "unknown command"
        ⟨1⟩ (by decide) (by decide) (by decide) rfl rfl
    rw [hsend, h1 "usage:" ["ping"] rfl]
    rfl
  · obtain ⟨lines, h0, _, _, _, hsend, _⟩ :=
      HandleTextMessage_executor_error_replies (failingExecEnv []) botHandler
        (inbound "!bot pong" 1700000001) emptyWorld "pong" [] "unknown command"
        ⟨1⟩ (by decide) (by decide) (by decide) rfl rfl
    rw [hsend, h0 rfl]
    rfl

/-- C5 as stated fails: an accepted message whose identifier is empty is
answered by a message that quotes nothing. -/
theorem HandleTextMessage_reply_without_quote :
    (sentMessages
        (HandleTextMessage quietEnv botHandler
          { Info := { Id := "", RemoteJid := "peer@s.whatsapp.net", Timestamp := 1700000001 },
            Text := "!bot ping" } emptyWorld).world.trace).map
        (fun p => (p.2.Info.QuotedMessageID, p.2.Info.QuotedMessage)) = [("", none)] ∧
      (none : Option String) ≠ some "!bot ping" := by
  decide

/-- C5 amended: for an accepted message with a live handle `c` and resulting
reply lines `r_0 .. r_(n-1)`, the timer waits and transport sends of the handler
are, after those already in the trace, exactly `n` pairs in index order: a wait
of 0 followed by a send on `c` of a message addressed to the conversation of
the inbound message, with text `r_i`, that quotes the identifier
and original text of the inbound message when that identifier is non-empty and quotes
nothing when it is empty. This holds whatever the transport answers to each
send. -/
theorem HandleTextMessage_reply_sends (env : Env) (wah : WAHandler) (data : TextMessage)
    (w : World) (rest : String) (c : Conn)
    (htest : (wah.IsTest && data.Info.RemoteJid != wah.SessionJid) = false)
    (hsplit : SplitN (TrimSpace data.Text) ' ' 2 = [wah.SessionTag, rest])
    (hts : wah.SessionStart ≤ data.Info.Timestamp)
    (hconn : wah.SessionConn = some c) :
    waitsAndSends (HandleTextMessage env wah data w).world.trace =
      waitsAndSends w.trace ++
        (replyLines (env.CMDExec w.trace (Split rest ' ') 0).1
          (env.CMDExec w.trace (Split rest ' ') 0).2).flatMap (fun r =>
            [Event.After 0,
             Event.Send c
              (if data.Info.Id = "" then
                { Info := { RemoteJid := data.Info.RemoteJid }, Text := r }
              else
                { Info := { RemoteJid := data.Info.RemoteJid, QuotedMessageID := data.Info.Id,
                            QuotedMessage := some data.Text },
                  Text := r })]) := by
  rw [HandleTextMessage_accepted env wah data w rest htest hsplit hts]
  simp only []
  rw [sendReplies_waitsAndSends env wah data c hconn]
  have hw : waitsAndSends
      (match (env.CMDExec w.trace (Split rest ' ') 0).2 with
        | none => w.emit (Event.CMDExec Registry.CMDList (Split rest ' ') 0)
        | some e => (w.emit (Event.CMDExec Registry.CMDList (Split rest ' ') 0)).emit
            (Event.LogPrintln LogLevel.LogLevelError e)).trace = waitsAndSends w.trace := by
    cases (env.CMDExec w.trace (Split rest ' ') 0).2 <;>
      simp [World.emit, waitsAndSends_append, waitsAndSends]
  rw [hw]
  congr 1
  apply List.flatMap_congr
  intro r _
  by_cases hid : data.Info.Id = ""
  · have : (data.Info.Id.length != 0) = false := by
      rw [hid]; rfl
    simp [hid, this]
  · have : (data.Info.Id.length != 0) = true := (length_ne_zero_iff _).mpr hid
    simp [hid, this]

/-- Witness of C5 amended: the executor echoes `a b` as two lines and the
transport refuses every send; both sends are issued, each after a wait of 0,
each quoting `MSG1` and the original text. -/
theorem HandleTextMessage_reply_sends_witness :
    waitsAndSends
        (HandleTextMessage brokenSendEnv botHandler (inbound "!bot a b" 1700000001)
          emptyWorld).world.trace =
      [Event.After 0,
       Event.Send ⟨1⟩
        { Info := { RemoteJid := "peer@s.whatsapp.net", QuotedMessageID := "MSG1",
                    QuotedMessage := some "!bot a b" },
          Text := "a" },
       Event.After 0,
       Event.Send ⟨1⟩
        { Info := { RemoteJid := "peer@s.whatsapp.net", QuotedMessageID := "MSG1",
                    QuotedMessage := some "!bot a b" },
          Text := "b" }] :=
  HandleTextMessage_reply_sends brokenSendEnv botHandler (inbound "!bot a b" 1700000001)
    emptyWorld "a b" ⟨1⟩ (by decide) (by decide) (by decide) rfl

/-! ## Session lifecycle -/

theorem WASessionLogin_disconnects_last (env : Env) (c : Conn) (file : String) (w : World) :
    (WASessionLogin env (some c) file w).1.trace =
      (loginBody env c file w).1.trace ++ [Event.Disconnect c] := by
  rfl

theorem WASessionLogout_disconnects_last (env : Env) (c : Conn) (file : String) (w : World) :
    ∃ t, (WASessionLogout env (some c) file w).1.trace = t ++ [Event.Disconnect c] := by
  cases h : env.Logout w.trace c with
  | some e => exact ⟨w.trace ++ [Event.Logout c], by simp [WASessionLogout, h, World.emit]⟩
  | none =>
    refine ⟨w.trace ++ [Event.Logout c, Event.Remove file], ?_⟩
    cases hr : env.Remove (w.trace ++ [Event.Logout c]) file <;>
      simp [WASessionLogout, h, World.emit, osRemove, hr]

theorem WASessionRestore_missing_file (env : Env) (c : Conn) (file : String) (w : World)
    (h : WASessionExist w file = false) :
    WASessionRestore env (some c) file w =
      (w.emit (Event.Disconnect c), some "session file doesn\x27t exist, please login first") := by
  simp [WASessionRestore, h]

/-- C6 as stated fails: logging in while `session.gob` exists does issue a
transport operation, the deferred disconnect. -/
theorem WASessionLogin_existing_file_disconnects :
    WASessionExist (worldWithSession "saved") "session.gob" = true ∧
      (WASessionLogin quietEnv (some ⟨1⟩) "session.gob" (worldWithSession "saved")).1.trace =
        [Event.Disconnect ⟨1⟩] ∧
      ((WASessionLogin quietEnv (some ⟨1⟩) "session.gob"
        (worldWithSession "saved")).1.trace.filter Event.isTransport) ≠ [] := by
  decide

/-- C6 amended: with a live handle and an existing credential file,
`WASessionLogin` returns the session-already-exists error, leaves every file as
it was, and issues exactly one transport operation, the deferred `Disconnect`;
no pairing or login request is made. -/
theorem WASessionLogin_existing_file (env : Env) (c : Conn) (file : String) (w : World)
    (h : WASessionExist w file = true) :
    (WASessionLogin env (some c) file w).2 =
        some "session file already exist, please logout first" ∧
      (WASessionLogin env (some c) file w).1.fs = w.fs ∧
      (WASessionLogin env (some c) file w).1.trace = w.trace ++ [Event.Disconnect c] := by
  simp [WASessionLogin, loginBody, h, World.emit]

/-- Witness of C6 amended: login attempted while `session.gob` holds `saved`. -/
theorem WASessionLogin_existing_file_witness :
    (WASessionLogin quietEnv (some ⟨1⟩) "session.gob" (worldWithSession "saved")).2 =
        some "session file already exist, please logout first" ∧
      (WASessionLogin quietEnv (some ⟨1⟩) "session.gob" (worldWithSession "saved")).1.fs
        = (worldWithSession "saved").fs ∧
      (WASessionLogin quietEnv (some ⟨1⟩) "session.gob" (worldWithSession "saved")).1.trace
        = (worldWithSession "saved").trace ++ [Event.Disconnect ⟨1⟩] :=
  WASessionLogin_existing_file quietEnv ⟨1⟩ "session.gob" (worldWithSession "saved") (by decide)

/-- C7 (code defect): `WASessionRestore` on a live handle with a loadable
`session.gob` returns an error without ever invoking `Disconnect` when the
liveness probe fails, and likewise when saving the credential file fails. -/
theorem WASessionRestore_late_failure_no_disconnect :
    ((WASessionRestore deadPhoneEnv (some ⟨1⟩) "session.gob" (worldWithSession "saved")).2 =
        some "something when wrong while trying to ping, please check phone connectivity" ∧
      (WASessionRestore deadPhoneEnv (some ⟨1⟩) "session.gob" (worldWithSession "saved")).1.trace =
        [Event.RestoreWithSession ⟨1⟩ ⟨"saved"⟩, Event.AdminTest ⟨1⟩]) ∧
    ((WASessionRestore readOnlyDiskEnv (some ⟨1⟩) "session.gob" (worldWithSession "saved")).2 =
        some "open session.gob: permission denied" ∧
      (WASessionRestore readOnlyDiskEnv (some ⟨1⟩) "session.gob"
        (worldWithSession "saved")).1.trace = [Event.RestoreWithSession ⟨1⟩ ⟨"saved"⟩]) := by
  decide

/-- C8 as stated fails: when `os.Remove` fails, an undecodable `session.gob` is
still present after `WASessionRestore` has returned its session-not-valid error. -/
theorem WASessionRestore_corrupt_file_survives :
    (worldWithSession "").fs "session.gob" = some "" ∧
      WASessionLoad stuckFileEnv "session.gob" (worldWithSession "") = Except.error "EOF" ∧
      (WASessionRestore stuckFileEnv (some ⟨1⟩) "session.gob" (worldWithSession "")).2 =
        some "session not valid, removing session file" ∧
      (WASessionRestore stuckFileEnv (some ⟨1⟩) "session.gob" (worldWithSession "")).1.fs
        "session.gob" = some "" :=
  ⟨by decide, rfl, by decide, by decide⟩

/-- C8 amended: `WASessionRestore` on a live handle with an existing credential
file. If loading the file fails, `os.Remove` is called on it once (the file is
gone when that removal succeeds and every file is as before when it fails), the
transport restore is not attempted (the only transport call is `Disconnect`)
and the session-not-valid error is returned. If loading succeeds and the
transport restore fails, every file is left as it was and the error of the
transport is returned. Whenever the call returns an error, it has called
`os.Remove` on the credential file exactly when the file could not be loaded,
and the file is gone afterwards exactly when it could not be loaded and the
removal succeeded. -/
theorem WASessionRestore_file_fate (env : Env) (c : Conn) (file : String) (w : World)
    (bytes : String) (hfile : w.fs file = some bytes) :
    (∀ e, WASessionLoad env file w = Except.error e →
      (WASessionRestore env (some c) file w).2 =
          some "session not valid, removing session file" ∧
        (WASessionRestore env (some c) file w).1.trace =
          w.trace ++ [Event.Remove file, Event.Disconnect c] ∧
        (env.Remove w.trace file = none →
          (WASessionRestore env (some c) file w).1.fs file = none) ∧
        (env.Remove w.trace file ≠ none →
          (WASessionRestore env (some c) file w).1.fs = w.fs)) ∧
    (∀ s e, WASessionLoad env file w = Except.ok s →
      env.RestoreWithSession w.trace c s = Except.error e →
      (WASessionRestore env (some c) file w).2 = some e ∧
        (WASessionRestore env (some c) file w).1.fs = w.fs ∧
        (WASessionRestore env (some c) file w).1.trace =
          w.trace ++ [Event.RestoreWithSession c s, Event.Disconnect c]) ∧
    ((WASessionRestore env (some c) file w).2 ≠ none →
      ∃ suffix, (WASessionRestore env (some c) file w).1.trace = w.trace ++ suffix ∧
        (Event.Remove file ∈ suffix ↔ ∃ e, WASessionLoad env file w = Except.error e) ∧
        ((WASessionRestore env (some c) file w).1.fs file = none ↔
          (∃ e, WASessionLoad env file w = Except.error e) ∧ env.Remove w.trace file = none)) := by
  have hex : WASessionExist w file = true := by simp [WASessionExist, hfile]
  refine ⟨?_, ?_, ?_⟩
  · intro e he
    cases hrm : env.Remove w.trace file <;>
      simp [WASessionRestore, hex, he, World.emit, osRemove, hrm]
  · intro s e hs he
    simp [WASessionRestore, hex, hs, he, World.emit]
  · intro _
    cases hd : WASessionLoad env file w with
    | error e =>
      refine ⟨[Event.Remove file, Event.Disconnect c], ?_, ?_, ?_⟩
      · cases hrm : env.Remove w.trace file <;>
          simp [WASessionRestore, hex, hd, World.emit, osRemove, hrm]
      · simp
      · cases hrm : env.Remove w.trace file <;>
          simp [WASessionRestore, hex, hd, World.emit, osRemove, hrm, hfile]
    | ok s =>
      cases hr : env.RestoreWithSession w.trace c s with
      | error e =>
        refine ⟨[Event.RestoreWithSession c s, Event.Disconnect c], ?_, ?_, ?_⟩
        · simp [WASessionRestore, hex, hd, hr, World.emit]
        · simp
        · simp [WASessionRestore, hex, hd, hr, World.emit, hfile]
      | ok s1 =>
        cases hcr : env.Create (w.trace ++ [Event.RestoreWithSession c s]) file with
        | some e =>
          refine ⟨[Event.RestoreWithSession c s], ?_, ?_, ?_⟩
          · simp [WASessionRestore, hex, hd, hr, World.emit, WASessionSave, hcr]
          · simp
          · simp [WASessionRestore, hex, hd, hr, World.emit, WASessionSave, hcr, hfile]
        | none =>
          cases hen : (env.Encode (w.trace ++ [Event.RestoreWithSession c s]) s1).2 with
          | some e =>
            refine ⟨[Event.RestoreWithSession c s], ?_, ?_, ?_⟩
            · simp [WASessionRestore, hex, hd, hr, World.emit, WASessionSave, hcr, hen]
            · simp
            · simp [WASessionRestore, hex, hd, hr, World.emit, WASessionSave, hcr, hen]
          | none =>
            refine ⟨[Event.RestoreWithSession c s, Event.AdminTest c], ?_, ?_, ?_⟩
            · cases hok : (env.AdminTest (w.trace ++ [Event.RestoreWithSession c s]) c).1 <;>
                cases her : (env.AdminTest (w.trace ++ [Event.RestoreWithSession c s]) c).2 <;>
                simp [WASessionRestore, hex, hd, hr, World.emit, WASessionSave, hcr, hen,
                  WASessionPing, hok, her]
            · simp
            · cases hok : (env.AdminTest (w.trace ++ [Event.RestoreWithSession c s]) c).1 <;>
                cases her : (env.AdminTest (w.trace ++ [Event.RestoreWithSession c s]) c).2 <;>
                simp [WASessionRestore, hex, hd, hr, World.emit, WASessionSave, hcr, hen,
                  WASessionPing, hok, her]

/-- Witness of C8 amended: an empty `session.gob` cannot be decoded and is
removed; a decodable one survives a refused transport restore. -/
theorem WASessionRestore_file_fate_witness :
    ((worldWithSession "").fs "session.gob" = some "" ∧
      (WASessionRestore quietEnv (some ⟨1⟩) "session.gob" (worldWithSession "")).2 =
        some "session not valid, removing session file" ∧
      (WASessionRestore quietEnv (some ⟨1⟩) "session.gob" (worldWithSession "")).1.trace =
        (worldWithSession "").trace ++ [Event.Remove "session.gob", Event.Disconnect ⟨1⟩] ∧
      (WASessionRestore quietEnv (some ⟨1⟩) "session.gob" (worldWithSession "")).1.fs
        "session.gob" = none) ∧
    ((WASessionRestore restoreRefusedEnv (some ⟨1⟩) "session.gob" (worldWithSession "saved")).2 =
        some "restore session connection timed out" ∧
      (WASessionRestore restoreRefusedEnv (some ⟨1⟩) "session.gob"
        (worldWithSession "saved")).1.fs = (worldWithSession "saved").fs) :=
  ⟨⟨rfl,
    ((WASessionRestore_file_fate quietEnv ⟨1⟩ "session.gob" (worldWithSession "") "" rfl).1
      "EOF" rfl).1,
    ((WASessionRestore_file_fate quietEnv ⟨1⟩ "session.gob" (worldWithSession "") "" rfl).1
      "EOF" rfl).2.1,
    ((WASessionRestore_file_fate quietEnv ⟨1⟩ "session.gob" (worldWithSession "") "" rfl).1
      "EOF" rfl).2.2.1 rfl⟩,
   ((WASessionRestore_file_fate restoreRefusedEnv ⟨1⟩ "session.gob" (worldWithSession "saved")
      "saved" rfl).2.1 ⟨"saved"⟩ "restore session connection timed out" rfl rfl).1,
   ((WASessionRestore_file_fate restoreRefusedEnv ⟨1⟩ "session.gob" (worldWithSession "saved")
      "saved" rfl).2.1 ⟨"saved"⟩ "restore session connection timed out" rfl rfl).2.1⟩

/-! ## Reconnect policy -/

theorem restoreCalls_append (t1 t2 : List Event) :
    restoreCalls (t1 ++ t2) = restoreCalls t1 ++ restoreCalls t2 := by
  induction t1 with
  | nil => rfl
  | cons e es ih => cases e <;> simp [restoreCalls, ih]

/-- C9 as stated fails: a connection failure handled in the very second the
session started leaves `SessionStart` equal to its old value, not greater; and
with `ReconnectTime = 9223372037` the duration handed to the timer has wrapped
around to a negative number of nanoseconds, so the restore does not follow a
wait of `ReconnectTime` seconds. -/
theorem HandleError_session_start_not_increased :
    (connectionFailedClosed.isErrConnectionFailed = true ∧
      WASessionExist (worldWithSession "saved") botHandler.SessionFile = true ∧
      botHandler.SessionConn ≠ none ∧
      (HandleError quietEnv botHandler connectionFailedClosed
        (worldWithSession "saved")).1.SessionStart = botHandler.SessionStart ∧
      ¬ botHandler.SessionStart <
        (HandleError quietEnv botHandler connectionFailedClosed
          (worldWithSession "saved")).1.SessionStart) ∧
    (waitsAndSends (HandleError quietEnv hugeDelayHandler connectionFailedClosed
        (worldWithSession "saved")).2.trace = [Event.After (-9223372036709551616)] ∧
      restoreCalls (HandleError quietEnv hugeDelayHandler connectionFailedClosed
        (worldWithSession "saved")).2.trace = [⟨1⟩]) := by
  decide

/-- C9 amended: for an error of the connection-failed class, with the
credential file present and a live handle `c`, `HandleError` logs a warning,
sets `SessionStart` to the clock reading taken then (as `uint64`; all other
fields of the handler are kept), so that `SessionStart` grows strictly exactly
when that reading exceeds the old value; it then starts one timer of
`time.Duration(ReconnectTime) * time.Second`, which is a wait of `ReconnectTime`
seconds when `0 ≤ ReconnectTime ≤ 9223372036`, and after it invokes the in-place
`Restore` on `c` exactly once, followed by nothing but one error log entry when
that restore fails. -/
theorem HandleError_reconnect (env : Env) (wah : WAHandler) (err : GoError) (w : World)
    (c : Conn) (herr : err.isErrConnectionFailed = true)
    (hfile : WASessionExist w wah.SessionFile = true) (hconn : wah.SessionConn = some c) :
    (HandleError env wah err w).1 =
        { wah with SessionStart := toUint64 (env.Now (w.trace ++ [Event.LogPrintln
          LogLevel.LogLevelWarn ("connection closed unexpetedly, reconnecting after " ++
            Itoa wah.ReconnectTime ++ " seconds")])) } ∧
      (wah.SessionStart < (HandleError env wah err w).1.SessionStart ↔
        wah.SessionStart < toUint64 (env.Now (w.trace ++ [Event.LogPrintln
          LogLevel.LogLevelWarn ("connection closed unexpetedly, reconnecting after " ++
            Itoa wah.ReconnectTime ++ " seconds")]))) ∧
      (∃ tail, (HandleError env wah err w).2.trace =
          w.trace ++ [Event.LogPrintln LogLevel.LogLevelWarn
              ("connection closed unexpetedly, reconnecting after " ++
                Itoa wah.ReconnectTime ++ " seconds"),
            Event.After (secondsDuration wah.ReconnectTime), Event.Restore c] ++ tail ∧
          (tail = [] ∨ ∃ e, tail = [Event.LogPrintln LogLevel.LogLevelError e])) ∧
      restoreCalls (HandleError env wah err w).2.trace = restoreCalls w.trace ++ [c] ∧
      (HandleError env wah err w).2.fs = w.fs ∧
      (0 ≤ wah.ReconnectTime → wah.ReconnectTime ≤ 9223372036 →
        secondsDuration wah.ReconnectTime = wah.ReconnectTime * 1000000000 ∧
        waitsAndSends (HandleError env wah err w).2.trace =
          waitsAndSends w.trace ++ [Event.After (wah.ReconnectTime * 1000000000)]) := by
  cases hr : env.Restore (w.trace ++ [Event.LogPrintln LogLevel.LogLevelWarn
      ("connection closed unexpetedly, reconnecting after " ++ Itoa wah.ReconnectTime ++
        " seconds"), Event.After (secondsDuration wah.ReconnectTime)]) c with
  | none =>
    refine ⟨?_, ?_, ⟨[], ?_, Or.inl rfl⟩, ?_, ?_, ?_⟩
    · simp [HandleError, herr, hfile, hconn, World.emit, hr]
    · simp [HandleError, herr, hfile, hconn, World.emit, hr]
    · simp [HandleError, herr, hfile, hconn, World.emit, hr]
    · simp [HandleError, herr, hfile, hconn, World.emit, hr, restoreCalls_append, restoreCalls]
    · simp [HandleError, herr, hfile, hconn, World.emit, hr]
    · intro h0 h1
      have hd : secondsDuration wah.ReconnectTime = wah.ReconnectTime * 1000000000 := by
        simp only [secondsDuration, wrapInt64]
        omega
      have ht : waitsAndSends (HandleError env wah err w).2.trace =
          waitsAndSends w.trace ++ [Event.After (secondsDuration wah.ReconnectTime)] := by
        simp [HandleError, herr, hfile, hconn, World.emit, hr, waitsAndSends_append,
          waitsAndSends]
      rw [ht, hd]
      exact ⟨rfl, rfl⟩
  | some e =>
    refine ⟨?_, ?_, ⟨[Event.LogPrintln LogLevel.LogLevelError e], ?_, Or.inr ⟨e, rfl⟩⟩, ?_, ?_, ?_⟩
    · simp [HandleError, herr, hfile, hconn, World.emit, hr]
    · simp [HandleError, herr, hfile, hconn, World.emit, hr]
    · simp [HandleError, herr, hfile, hconn, World.emit, hr]
    · simp [HandleError, herr, hfile, hconn, World.emit, hr, restoreCalls_append, restoreCalls]
    · simp [HandleError, herr, hfile, hconn, World.emit, hr]
    · intro h0 h1
      have hd : secondsDuration wah.ReconnectTime = wah.ReconnectTime * 1000000000 := by
        simp only [secondsDuration, wrapInt64]
        omega
      have ht : waitsAndSends (HandleError env wah err w).2.trace =
          waitsAndSends w.trace ++ [Event.After (secondsDuration wah.ReconnectTime)] := by
        simp [HandleError, herr, hfile, hconn, World.emit, hr, waitsAndSends_append,
          waitsAndSends]
      rw [ht, hd]
      exact ⟨rfl, rfl⟩

/-- Witness of C9 amended: a handler started at 1600000000 with a reconnect
delay of 5 seconds meets a connection failure when the clock reads 1700000000;
the session start moves forward, one timer of 5 seconds is started and the
transport restore is invoked once. -/
theorem HandleError_reconnect_witness :
    (1600000000 : Nat) <
        (HandleError quietEnv { botHandler with SessionStart := 1600000000 }
          connectionFailedClosed (worldWithSession "saved")).1.SessionStart ∧
      restoreCalls (HandleError quietEnv { botHandler with SessionStart := 1600000000 }
        connectionFailedClosed (worldWithSession "saved")).2.trace = [⟨1⟩] ∧
      waitsAndSends (HandleError quietEnv { botHandler with SessionStart := 1600000000 }
        connectionFailedClosed (worldWithSession "saved")).2.trace =
          [Event.After 5000000000] :=
  ⟨(HandleError_reconnect quietEnv { botHandler with SessionStart := 1600000000 }
      connectionFailedClosed (worldWithSession "saved") ⟨1⟩ rfl (by decide) rfl).2.1.mpr
      (by decide),
   (HandleError_reconnect quietEnv { botHandler with SessionStart := 1600000000 }
      connectionFailedClosed (worldWithSession "saved") ⟨1⟩ rfl (by decide) rfl).2.2.2.1,
   ((HandleError_reconnect quietEnv { botHandler with SessionStart := 1600000000 }
      connectionFailedClosed (worldWithSession "saved") ⟨1⟩ rfl (by decide) rfl).2.2.2.2.2
      (by decide) (by decide)).2⟩

/-- C10 as stated fails: an error of the connection-failed class whose text
contains `server closed connection` is logged, and with a credential file and a
live handle it also triggers the wait and the transport restore. -/
theorem HandleError_connection_failed_logged :
    Contains (quietEnv.ToLower connectionFailedClosed.text) "server closed connection" = true ∧
      logEntries (HandleError quietEnv botHandler connectionFailedClosed emptyWorld).2.trace =
        [(LogLevel.LogLevelError, "connection closed unexpetedly")] ∧
      restoreCalls (HandleError quietEnv botHandler connectionFailedClosed
        (worldWithSession "saved")).2.trace = [⟨1⟩] := by
  decide

/-- C10 amended: for an error that is not of the connection-failed class and
whose lower-cased text contains `server closed connection`, `HandleError` does
nothing: the handler state and the world (files and trace, hence no log entry,
no wait, no transport restore) are returned as they were. -/
theorem HandleError_server_closed_silent (env : Env) (wah : WAHandler) (err : GoError)
    (w : World) (hclass : err.isErrConnectionFailed = false)
    (htext : Contains (env.ToLower err.text) "server closed connection" = true) :
    HandleError env wah err w = (wah, w) := by
  simp [HandleError, hclass, htext]

/-- Witness of C10 amended: `Server Closed Connection,code: 1006` of a type other
than the connection-failed one. -/
theorem HandleError_server_closed_silent_witness :
    HandleError quietEnv botHandler serverClosed (worldWithSession "saved") =
      (botHandler, worldWithSession "saved") :=
  HandleError_server_closed_silent quietEnv botHandler serverClosed (worldWithSession "saved")
    rfl (by decide)

end WhatsappCli
